import Mathlib

/-!
Verification of the BPMN domain model (`src/types/non_empty.rs`,
`src/core/definitions.rs`): a shallow embedding of `NonEmptyVec<T>`, the
BPMN record types, and the serde-derived JSON encoding, with theorems for
the specified properties.
-/

set_option maxHeartbeats 1000000

/-- Embeds `NonEmptyVec<T>` from `src/types/non_empty.rs`: a distinguished
`head : T` plus a possibly-empty `tail : Vec<T>`. -/
structure NonEmptyVec (T : Type) where
  head : T
  tail : List T
deriving DecidableEq, Repr

namespace NonEmptyVec

/-- `NonEmptyVec::new(head)`: single-element value with empty tail. -/
def new (head : T) : NonEmptyVec T := ⟨head, []⟩

/-- `NonEmptyVec::first(&self) -> &T`: returns the head. Total by type. -/
def first (v : NonEmptyVec T) : T := v.head

/-- `NonEmptyVec::push(&mut self, value)`: `self.tail.push(value)`, modelled
functionally as appending to the tail list. -/
def push (v : NonEmptyVec T) (value : T) : NonEmptyVec T :=
  ⟨v.head, v.tail ++ [value]⟩

/-- `NonEmptyVec::len(&self)`: `1 + self.tail.len()`. -/
def len (v : NonEmptyVec T) : Nat := 1 + v.tail.length

/-- `NonEmptyVec::iter(&self)`: `once(&self.head).chain(self.tail.iter())`,
modelled as the finite list of elements the iterator yields, in order.
Since it borrows, the value is unchanged and re-iteration yields the same
list; the model makes this a pure function of `v`. -/
def iter (v : NonEmptyVec T) : List T := v.head :: v.tail

/-- `impl From<T> for NonEmptyVec<T>`: `Self::new(head)`. -/
def from_value (head : T) : NonEmptyVec T := new head

/-- A sequence of `push` calls applied in order (used to state properties
about construction histories). -/
def pushAll (v : NonEmptyVec T) : List T → NonEmptyVec T
  | [] => v
  | x :: xs => pushAll (v.push x) xs

end NonEmptyVec

/-- The values of `NonEmptyVec<T>` reachable by the public API: created by
`new` or `From::from`, then grown by any sequence of `push` calls (the only
exposed mutator). -/
inductive Reachable : NonEmptyVec T → Prop where
  | of_new (head : T) : Reachable (NonEmptyVec.new head)
  | of_from (head : T) : Reachable (NonEmptyVec.from_value head)
  | of_push {v : NonEmptyVec T} (x : T) : Reachable v → Reachable (v.push x)

namespace Bpmn

/-- `StartEvent` from `src/core/definitions.rs`. -/
structure StartEvent where
  id : String
  name : Option String
deriving DecidableEq, Repr

/-- `Task` from `src/core/definitions.rs`. -/
structure Task where
  id : String
  name : Option String
deriving DecidableEq, Repr

/-- `Gateway` from `src/core/definitions.rs`. -/
structure Gateway where
  id : String
  name : Option String
deriving DecidableEq, Repr

/-- `EndEvent` from `src/core/definitions.rs`. -/
structure EndEvent where
  id : String
  name : Option String
deriving DecidableEq, Repr

/-- `SequenceFlow` from `src/core/definitions.rs`. -/
structure SequenceFlow where
  id : String
  name : Option String
  source_ref : String
  target_ref : String
deriving DecidableEq, Repr

/-- `Process` from `src/core/definitions.rs`: `start_events` is a
`NonEmptyVec<StartEvent>`, the other collections plain vectors. -/
structure Process where
  id : String
  name : Option String
  start_events : NonEmptyVec StartEvent
  tasks : List Task
  gateways : List Gateway
  end_events : List EndEvent
  sequence_flows : List SequenceFlow
deriving DecidableEq, Repr

/-- `Definitions` from `src/core/definitions.rs`. -/
structure Definitions where
  name : Option String
  target_namespace : Option String
  processes : List Process
deriving DecidableEq, Repr

end Bpmn

open Bpmn

theorem NonEmptyVec.iter_push (v : NonEmptyVec T) (x : T) :
    (v.push x).iter = v.iter ++ [x] := by
  cases v; simp [NonEmptyVec.iter, NonEmptyVec.push]

theorem NonEmptyVec.iter_pushAll (v : NonEmptyVec T) (ts : List T) :
    (v.pushAll ts).iter = v.iter ++ ts := by
  induction ts generalizing v with
  | nil => simp [NonEmptyVec.pushAll]
  | cons x xs ih =>
    rw [NonEmptyVec.pushAll, ih, NonEmptyVec.iter_push]
    simp

/-- C1: every `NonEmptyVec` reachable by the public operations (`new`,
`From::from`, any sequence of `push`) has `len() ≥ 1` — in fact every value
of the type does — and every `Process` has `start_events.len() ≥ 1`. -/
theorem nonEmptyVec_len_ge_one :
    (∀ (T : Type) (v : NonEmptyVec T), Reachable v → 1 ≤ v.len) ∧
    (∀ (T : Type) (v : NonEmptyVec T), 1 ≤ v.len) ∧
    (∀ p : Process, 1 ≤ p.start_events.len) := by
  refine ⟨fun T v _ => ?_, fun T v => ?_, fun p => ?_⟩ <;>
    simp [NonEmptyVec.len]

/-- C1 witness: the invariant at a concrete reachable value. -/
theorem nonEmptyVec_len_ge_one_witness :
    1 ≤ ((NonEmptyVec.new 7).push 8).len :=
  nonEmptyVec_len_ge_one.1 Nat ((NonEmptyVec.new 7).push 8)
    (Reachable.of_push 8 (Reachable.of_new 7))

/-- C2: a `NonEmptyVec` built by `new h` followed by `push t1, …, push tn`
iterates as exactly `[h, t1, …, tn]`; iteration is a pure borrow, so
re-iterating the same value yields the same sequence. -/
theorem iter_new_pushAll (h : T) (ts : List T) :
    ((NonEmptyVec.new h).pushAll ts).iter = h :: ts := by
  rw [NonEmptyVec.iter_pushAll]
  simp [NonEmptyVec.iter, NonEmptyVec.new]

/-- C3: `first()` is total (it returns a `T`, with no `Option`), and for
every value it equals the first element yielded by `iter()`. -/
theorem first_eq_iter_head (v : NonEmptyVec T) :
    v.iter.head? = some v.first := by
  simp [NonEmptyVec.iter, NonEmptyVec.first]

/-- C6: equality on `NonEmptyVec` is structural (same head and same tail
sequence, order-sensitive), equality on `Process` is field-by-field with
`start_events` compared via `NonEmptyVec` equality, and two concrete
`Process` values differing only in the order of the `start_events` tail are
unequal. -/
theorem structural_equality :
    (∀ (T : Type) (v w : NonEmptyVec T),
      v = w ↔ v.head = w.head ∧ v.tail = w.tail) ∧
    (∀ p q : Process,
      p = q ↔ p.id = q.id ∧ p.name = q.name ∧
        p.start_events = q.start_events ∧ p.tasks = q.tasks ∧
        p.gateways = q.gateways ∧ p.end_events = q.end_events ∧
        p.sequence_flows = q.sequence_flows) ∧
    (Process.mk "p" none ⟨⟨"s1", none⟩, [⟨"s2", none⟩, ⟨"s3", none⟩]⟩
        [] [] [] [] ≠
      Process.mk "p" none ⟨⟨"s1", none⟩, [⟨"s3", none⟩, ⟨"s2", none⟩]⟩
        [] [] [] []) := by
  refine ⟨fun T v w => ?_, fun p q => ?_, by decide⟩
  · cases v; cases w; simp [NonEmptyVec.mk.injEq]
  · cases p; cases q; simp [Process.mk.injEq]

/-- C7: `len()` is exactly `1 + tail.len()` (hence `≥ 1`), and `new(seed)`
always succeeds with a length-1 value whose only element is `seed`. -/
theorem len_def_and_new (T : Type) (v : NonEmptyVec T) (seed : T) :
    v.len = 1 + v.tail.length ∧ 1 ≤ v.len ∧
    (NonEmptyVec.new seed).len = 1 ∧
    (NonEmptyVec.new seed).iter = [seed] := by
  simp [NonEmptyVec.len, NonEmptyVec.new, NonEmptyVec.iter]

/-- C8: `push(x)` always succeeds, appends `x` as the new last element,
leaves the head and all previously stored elements (and their order)
unchanged, and increases `len()` by exactly 1. -/
theorem push_frame (v : NonEmptyVec T) (x : T) :
    (v.push x).iter = v.iter ++ [x] ∧
    (v.push x).head = v.head ∧
    (v.push x).len = v.len + 1 := by
  simp [NonEmptyVec.push, NonEmptyVec.iter, NonEmptyVec.len]
  omega

/-- C9: `From::from(x)` produces the same value as `new(x)`: head `x` and
empty tail. -/
theorem from_eq_new (x : T) :
    NonEmptyVec.from_value x = NonEmptyVec.new x ∧
    (NonEmptyVec.from_value x).head = x ∧
    (NonEmptyVec.from_value x).tail = [] := by
  simp [NonEmptyVec.from_value, NonEmptyVec.new]

/-- C10: one full pass of `iter()` yields exactly `len()` elements. -/
theorem iter_length_eq_len (v : NonEmptyVec T) :
    v.iter.length = v.len := by
  simp [NonEmptyVec.iter, NonEmptyVec.len]
  omega

/-! ## The external representation (serde_json)

The record types derive `Serialize`/`Deserialize`. The derived encoding of a
struct is a JSON map carrying each field under its name, in declaration
order; `Option<String>` encodes as `null`/string and decodes `null` or a
missing field to `None`; `Vec` encodes as a JSON array; derived struct
decoding looks fields up by name (any key order), ignores unknown keys, and
errors on a duplicated or missing required field. -/

/-- JSON values: the external representation produced and consumed by the
derived serde implementations. -/
inductive Json where
  | null : Json
  | str : String → Json
  | arr : List Json → Json
  | obj : List (String × Json) → Json
deriving Repr

/-- Field lookup in a decoded JSON map, as the derived `Deserialize` visitor
behaves: unknown keys are ignored, a repeated struct field is an error. -/
def getField : List (String × Json) → String → Except String (Option Json)
  | [], _ => .ok none
  | (k, v) :: rest, key =>
    if k = key then
      match getField rest key with
      | .ok none => .ok (some v)
      | .ok (some _) => .error ("duplicate field " ++ key)
      | .error e => .error e
    else getField rest key

/-- A required struct field: missing is an error. -/
def reqField (kvs : List (String × Json)) (key : String)
    (decT : Json → Except String A) : Except String A :=
  match getField kvs key with
  | .ok (some j) => decT j
  | .ok none => .error ("missing field " ++ key)
  | .error e => .error e

/-- An `Option` struct field: `null` or a missing field decodes to `none`. -/
def optField (kvs : List (String × Json)) (key : String)
    (decT : Json → Except String A) : Except String (Option A) :=
  match getField kvs key with
  | .ok (some Json.null) => .ok none
  | .ok (some j) => (decT j).map some
  | .ok none => .ok none
  | .error e => .error e

/-- Decoding a `String`. -/
def decString : Json → Except String String
  | Json.str s => .ok s
  | _ => .error "invalid type: expected a string"

/-- Decoding the elements of a JSON array one by one, stopping at the first
error. -/
def decElems (decT : Json → Except String A) : List Json → Except String (List A)
  | [] => .ok []
  | j :: js =>
    match decT j, decElems decT js with
    | .ok a, .ok as => .ok (a :: as)
    | .error e, _ => .error e
    | _, .error e => .error e

/-- Decoding a `Vec<T>` from a JSON array. -/
def decList (decT : Json → Except String A) : Json → Except String (List A)
  | Json.arr js => decElems decT js
  | _ => .error "invalid type: expected a sequence"

/-- Encoding an `Option<String>`: `None` is `null`. -/
def encOptString : Option String → Json
  | none => Json.null
  | some s => Json.str s

/-- Derived `Serialize` for `NonEmptyVec<T>`: a map with the two fields
`head` and `tail` in declaration order, `tail` as a JSON array. -/
def encNonEmptyVec (encT : T → Json) (v : NonEmptyVec T) : Json :=
  Json.obj [("head", encT v.head), ("tail", Json.arr (v.tail.map encT))]

/-- Derived `Deserialize` for `NonEmptyVec<T>`: expects a map providing the
required fields `head` and `tail`. -/
def decNonEmptyVec (decT : Json → Except String A) :
    Json → Except String (NonEmptyVec A)
  | Json.obj kvs =>
    match reqField kvs "head" decT, reqField kvs "tail" (decList decT) with
    | .ok h, .ok t => .ok ⟨h, t⟩
    | .error e, _ => .error e
    | _, .error e => .error e
  | _ => .error "invalid type: expected struct NonEmptyVec"

/-- Derived `Serialize` for `StartEvent`. -/
def encStartEvent (e : StartEvent) : Json :=
  Json.obj [("id", Json.str e.id), ("name", encOptString e.name)]

/-- Derived `Deserialize` for `StartEvent`. -/
def decStartEvent : Json → Except String StartEvent
  | Json.obj kvs =>
    match reqField kvs "id" decString, optField kvs "name" decString with
    | .ok i, .ok n => .ok ⟨i, n⟩
    | .error e, _ => .error e
    | _, .error e => .error e
  | _ => .error "invalid type: expected struct StartEvent"

/-- Derived `Serialize` for `Task`. -/
def encTask (t : Bpmn.Task) : Json :=
  Json.obj [("id", Json.str t.id), ("name", encOptString t.name)]

/-- Derived `Deserialize` for `Task`. -/
def decTask : Json → Except String Bpmn.Task
  | Json.obj kvs =>
    match reqField kvs "id" decString, optField kvs "name" decString with
    | .ok i, .ok n => .ok ⟨i, n⟩
    | .error e, _ => .error e
    | _, .error e => .error e
  | _ => .error "invalid type: expected struct Task"

/-- Derived `Serialize` for `Gateway`. -/
def encGateway (g : Gateway) : Json :=
  Json.obj [("id", Json.str g.id), ("name", encOptString g.name)]

/-- Derived `Deserialize` for `Gateway`. -/
def decGateway : Json → Except String Gateway
  | Json.obj kvs =>
    match reqField kvs "id" decString, optField kvs "name" decString with
    | .ok i, .ok n => .ok ⟨i, n⟩
    | .error e, _ => .error e
    | _, .error e => .error e
  | _ => .error "invalid type: expected struct Gateway"

/-- Derived `Serialize` for `EndEvent`. -/
def encEndEvent (e : EndEvent) : Json :=
  Json.obj [("id", Json.str e.id), ("name", encOptString e.name)]

/-- Derived `Deserialize` for `EndEvent`. -/
def decEndEvent : Json → Except String EndEvent
  | Json.obj kvs =>
    match reqField kvs "id" decString, optField kvs "name" decString with
    | .ok i, .ok n => .ok ⟨i, n⟩
    | .error e, _ => .error e
    | _, .error e => .error e
  | _ => .error "invalid type: expected struct EndEvent"

/-- Derived `Serialize` for `SequenceFlow`. -/
def encSequenceFlow (f : SequenceFlow) : Json :=
  Json.obj [("id", Json.str f.id), ("name", encOptString f.name),
    ("source_ref", Json.str f.source_ref),
    ("target_ref", Json.str f.target_ref)]

/-- Derived `Deserialize` for `SequenceFlow`. -/
def decSequenceFlow : Json → Except String SequenceFlow
  | Json.obj kvs =>
    match reqField kvs "id" decString, optField kvs "name" decString,
        reqField kvs "source_ref" decString,
        reqField kvs "target_ref" decString with
    | .ok i, .ok n, .ok s, .ok t => .ok ⟨i, n, s, t⟩
    | .error e, _, _, _ => .error e
    | _, .error e, _, _ => .error e
    | _, _, .error e, _ => .error e
    | _, _, _, .error e => .error e
  | _ => .error "invalid type: expected struct SequenceFlow"

/-- Derived `Serialize` for `Process`: all seven fields in declaration
order; `start_events` uses the `NonEmptyVec` encoding. -/
def encProcess (p : Process) : Json :=
  Json.obj [("id", Json.str p.id), ("name", encOptString p.name),
    ("start_events", encNonEmptyVec encStartEvent p.start_events),
    ("tasks", Json.arr (p.tasks.map encTask)),
    ("gateways", Json.arr (p.gateways.map encGateway)),
    ("end_events", Json.arr (p.end_events.map encEndEvent)),
    ("sequence_flows", Json.arr (p.sequence_flows.map encSequenceFlow))]

/-- Derived `Deserialize` for `Process`. -/
def decProcess : Json → Except String Process
  | Json.obj kvs =>
    match reqField kvs "id" decString, optField kvs "name" decString,
        reqField kvs "start_events" (decNonEmptyVec decStartEvent),
        reqField kvs "tasks" (decList decTask),
        reqField kvs "gateways" (decList decGateway),
        reqField kvs "end_events" (decList decEndEvent),
        reqField kvs "sequence_flows" (decList decSequenceFlow) with
    | .ok i, .ok n, .ok se, .ok ts, .ok gs, .ok es, .ok fs =>
      .ok ⟨i, n, se, ts, gs, es, fs⟩
    | .error e, _, _, _, _, _, _ => .error e
    | _, .error e, _, _, _, _, _ => .error e
    | _, _, .error e, _, _, _, _ => .error e
    | _, _, _, .error e, _, _, _ => .error e
    | _, _, _, _, .error e, _, _ => .error e
    | _, _, _, _, _, .error e, _ => .error e
    | _, _, _, _, _, _, .error e => .error e
  | _ => .error "invalid type: expected struct Process"

theorem decElems_enc (encT : A → Json) (decT : Json → Except String A)
    (hrt : ∀ a, decT (encT a) = .ok a) (xs : List A) :
    decElems decT (xs.map encT) = Except.ok xs := by
  induction xs with
  | nil => rfl
  | cons x xs ih => simp [decElems, hrt, ih]

theorem decNonEmptyVec_enc (encT : A → Json) (decT : Json → Except String A)
    (hrt : ∀ a, decT (encT a) = .ok a) (v : NonEmptyVec A) :
    decNonEmptyVec decT (encNonEmptyVec encT v) = .ok v := by
  cases v with
  | mk h t =>
    simp [encNonEmptyVec, decNonEmptyVec, reqField, getField, decList,
      decElems_enc encT decT hrt, hrt]

theorem decStartEvent_enc (e : StartEvent) :
    decStartEvent (encStartEvent e) = .ok e := by
  cases e with
  | mk i n =>
    cases n <;>
      simp [encStartEvent, decStartEvent, reqField, optField, getField,
        decString, encOptString, Except.map]

theorem decTask_enc (t : Bpmn.Task) : decTask (encTask t) = .ok t := by
  cases t with
  | mk i n =>
    cases n <;>
      simp [encTask, decTask, reqField, optField, getField,
        decString, encOptString, Except.map]

theorem decGateway_enc (g : Gateway) : decGateway (encGateway g) = .ok g := by
  cases g with
  | mk i n =>
    cases n <;>
      simp [encGateway, decGateway, reqField, optField, getField,
        decString, encOptString, Except.map]

theorem decEndEvent_enc (e : EndEvent) :
    decEndEvent (encEndEvent e) = .ok e := by
  cases e with
  | mk i n =>
    cases n <;>
      simp [encEndEvent, decEndEvent, reqField, optField, getField,
        decString, encOptString, Except.map]

theorem decSequenceFlow_enc (f : SequenceFlow) :
    decSequenceFlow (encSequenceFlow f) = .ok f := by
  cases f with
  | mk i n s t =>
    cases n <;>
      simp [encSequenceFlow, decSequenceFlow, reqField, optField, getField,
        decString, encOptString, Except.map]

theorem decProcess_enc (p : Process) : decProcess (encProcess p) = .ok p := by
  cases p with
  | mk i n se ts gs es fs =>
    cases n <;>
      simp [encProcess, decProcess, reqField, optField, getField,
        decString, encOptString, Except.map, decList,
        decNonEmptyVec_enc encStartEvent decStartEvent decStartEvent_enc,
        decElems_enc encTask decTask decTask_enc,
        decElems_enc encGateway decGateway decGateway_enc,
        decElems_enc encEndEvent decEndEvent decEndEvent_enc,
        decElems_enc encSequenceFlow decSequenceFlow decSequenceFlow_enc]

/-- C4 counterexample: the derived encoding of a concrete one-element
`NonEmptyVec` is a `head`/`tail` map, not the plain ordered sequence of its
elements that the claim describes. -/
theorem enc_not_plain_sequence :
    encNonEmptyVec Json.str (NonEmptyVec.new "a") ≠
      Json.arr ((NonEmptyVec.new "a").iter.map Json.str) := by
  simp [encNonEmptyVec, NonEmptyVec.new, NonEmptyVec.iter]

/-- C4 (amended): `NonEmptyVec<T>` is encoded as a map carrying the `head`
element and the `tail` sequence (not as a plain sequence of elements);
decoding an external representation with zero elements — an empty sequence,
or a map providing no `head` — fails with an error, and every successful
decode yields a value with `len() ≥ 1`, never a degenerate or default
instance. -/
theorem decode_rejects_empty :
    decNonEmptyVec decString (Json.arr []) =
      .error "invalid type: expected struct NonEmptyVec" ∧
    decNonEmptyVec decString (Json.obj []) = .error "missing field head" ∧
    (∀ (j : Json) (v : NonEmptyVec String),
      decNonEmptyVec decString j = .ok v → 1 ≤ v.len) := by
  refine ⟨rfl, rfl, fun j v _ => ?_⟩
  simp [NonEmptyVec.len]

/-- C4 witness: the amended claim at a concrete successful decode. -/
theorem decode_rejects_empty_witness :
    1 ≤ (NonEmptyVec.mk "a" [] : NonEmptyVec String).len :=
  decode_rejects_empty.2.2
    (Json.obj [("head", Json.str "a"), ("tail", Json.arr [])]) ⟨"a", []⟩ rfl

/-- C5 counterexample: the representation listing `tail` before `head`
decodes successfully, but re-encoding the result does not reproduce it, so
`encode(decode(y)) = y` fails for a successfully-decoding `y`. -/
theorem encode_decode_not_id :
    decNonEmptyVec decString
        (Json.obj [("tail", Json.arr []), ("head", Json.str "a")]) =
      .ok (NonEmptyVec.new "a") ∧
    encNonEmptyVec Json.str (NonEmptyVec.new "a") ≠
      Json.obj [("tail", Json.arr []), ("head", Json.str "a")] := by
  refine ⟨rfl, ?_⟩
  simp [encNonEmptyVec, NonEmptyVec.new]

/-- C5 (amended): `decode(encode(x)) = x` holds for every `NonEmptyVec<T>`
value (whenever `T` itself round-trips) and for every `Process` value, and
`encode(decode(y)) = y` holds for every `y` in the image of `encode`
(canonical representations) — but not for every representation that merely
decodes successfully. -/
theorem serde_roundtrip :
    (∀ (A : Type) (encT : A → Json) (decT : Json → Except String A),
      (∀ a, decT (encT a) = .ok a) →
      ∀ v : NonEmptyVec A,
        decNonEmptyVec decT (encNonEmptyVec encT v) = .ok v) ∧
    (∀ p : Process, decProcess (encProcess p) = .ok p) ∧
    (∀ y : Json, (∃ x : NonEmptyVec String, y = encNonEmptyVec Json.str x) →
      ∃ v, decNonEmptyVec decString y = .ok v ∧
        encNonEmptyVec Json.str v = y) ∧
    (∀ y : Json, (∃ p : Process, y = encProcess p) →
      ∃ q, decProcess y = .ok q ∧ encProcess q = y) := by
  refine ⟨fun A encT decT hrt v => decNonEmptyVec_enc encT decT hrt v,
    decProcess_enc, ?_, ?_⟩
  · rintro y ⟨x, rfl⟩
    exact ⟨x, decNonEmptyVec_enc Json.str decString (fun a => rfl) x, rfl⟩
  · rintro y ⟨p, rfl⟩
    exact ⟨p, decProcess_enc p, rfl⟩

/-- C5 witness: the round-trip at a concrete two-element value. -/
theorem serde_roundtrip_witness :
    decNonEmptyVec decString
        (encNonEmptyVec Json.str (NonEmptyVec.mk "a" ["b"])) =
      .ok (NonEmptyVec.mk "a" ["b"]) :=
  serde_roundtrip.1 String Json.str decString (fun _ => rfl) ⟨"a", ["b"]⟩
